import Mathlib

/-!
Shallow embedding of the Medusa sales-channel module: the `SalesChannelRepository`
bulk insert (`src/unnamed/part_000`) and the `SalesChannelService` operations
(`src/packages/medusa/src/services/sales-channel.ts`).  Services are modelled as
functions `State → Except SCError (α × State)`; an error result carries no state,
which embeds the transaction rollback of `atomicPhase_` (a failed unit of work
leaves the store unchanged).
-/

/-- Modelled from the spec: the SalesChannel entity (`src/packages/medusa/src/models`
is not under src/).  A Channel has identity, name, description, disabled flag and a
soft-delete timestamp. -/
structure Channel where
  id : String
  name : String
  description : Option String
  is_disabled : Bool
  deleted_at : Option Nat
deriving DecidableEq, Repr

/-- Modelled from the spec: the Store entity (not under src/) carries the pointer to
its default sales channel. -/
structure Store where
  default_sales_channel_id : Option String
deriving DecidableEq, Repr

/-- Modelled from the spec: `CreateSalesChannelInput` (`types/sales-channels` is not
under src/); `createDefault` passes name, description and is_disabled. -/
structure CreateSalesChannelInput where
  name : String
  description : Option String := none
  is_disabled : Bool := false
deriving DecidableEq, Repr

/-- Modelled from the spec: `UpdateSalesChannelInput` (not under src/).  The outer
`Option` distinguishes an absent/undefined field (`none`, skipped by the update
loop) from a provided one (`some`); for `description` the inner `Option` lets a
provided value be `null` (`some none`), which IS applied. -/
structure UpdateSalesChannelInput where
  name : Option String := none
  description : Option (Option String) := none
  is_disabled : Option Bool := none
deriving DecidableEq, Repr

/-- Program-order trace of the side-effecting primitives inside a unit of work:
event emission, entity save and soft removal. -/
inductive TraceAction where
  | emitted (eventName : String) (payloadId : String)
  | saved (channelId : String)
  | softRemoved (channelId : String)
deriving DecidableEq, Repr

/-- Errors crossing the service boundary: `notFound` is a MedusaError of type
NOT_FOUND; `dbError code msg` is a raw storage error carrying a Postgres error
code; `database` is the uniform representation produced by `formatException`. -/
inductive SCError where
  | notFound (msg : String)
  | dbError (code : String) (msg : String)
  | database (msg : String)
deriving DecidableEq, Repr

/-- The persistent state threaded through the service: channel rows, the product
table (ids only — the Product Lookup), the channel–product association relation,
the Store singleton, the emitted events `(name, payload id)`, the side-effect
trace, an id-generation counter, a clock for soft-delete timestamps, and an
injectable read fault standing for a generic storage failure during a repository
read (the spec's `Generic/other storage errors`). -/
structure State where
  channels : List Channel
  products : List String
  assocs : List (String × String)
  store : Store
  events : List (String × String)
  trace : List TraceAction
  nextId : Nat
  clock : Nat
  readFault : Option String
deriving DecidableEq, Repr

/-- Modelled from the spec: the Postgres foreign-key-violation class code used by
`exception-formatter`'s `PostgresError.FOREIGN_KEY_ERROR` (not under src/). -/
def PostgresError.FOREIGN_KEY_ERROR : String := "23503"

/-- Modelled from the spec: `formatException` (not under src/) normalizes
storage-specific error shapes into a uniform error representation; domain errors
pass through unchanged. -/
def formatException : SCError → SCError
  | .dbError _ msg => .database msg
  | e => e

def Events.CREATED : String := "sales_channel.created"

def Events.UPDATED : String := "sales_channel.updated"

def Events.DELETED : String := "sales_channel.deleted"

/-- Modelled from the spec: id generation of the SalesChannel model (not under
src/); the created event carries the new channel id, so the id is assigned when
the entity is instantiated by `salesChannelRepo.create`. -/
def freshId (n : Nat) : String := "sc_" ++ toString n

def channelRowExists (s : State) (chId : String) : Bool :=
  s.channels.any (fun c => c.id == chId)

/-- Referential integrity of one association row, enforced by the store: both the
channel row and the product row must exist. -/
def fkSatisfied (s : State) (chId : String) (pid : String) : Bool :=
  channelRowExists s chId && s.products.contains pid

/-- Insert-ignore of a single row: a pair already present is silently skipped. -/
def insertIgnore (l : List (String × String)) (r : String × String) :
    List (String × String) :=
  if r ∈ l then l else l ++ [r]

def insertIgnoreAll (l : List (String × String)) (rows : List (String × String)) :
    List (String × String) :=
  rows.foldl insertIgnore l

/-- `SalesChannelRepository.addProducts`: bulk insert into `product_sales_channel`
with `orIgnore`.  Each row is (sales_channel_id, product_id); if any row violates
referential integrity the store raises a foreign-key-violation and nothing is
written; with zero rows no constraint is checked. -/
def SalesChannelRepository.addProducts (s : State) (chId : String)
    (pids : List String) : Except SCError State :=
  if pids.all (fun pid => fkSatisfied s chId pid) then
    .ok { s with assocs := insertIgnoreAll s.assocs (pids.map (fun pid => (chId, pid))) }
  else
    .error (.dbError PostgresError.FOREIGN_KEY_ERROR
      "insert on product_sales_channel violates foreign key constraint")

def notFoundMessage (chId : String) : String :=
  "Sales channel with id " ++ chId ++ " was not found"

/-- The filter of the generic query builder on a retrieve: match on id, excluding
soft-deleted rows. -/
def liveChannel (chId : String) (c : Channel) : Bool :=
  c.id == chId && c.deleted_at.isNone

/-- Row match on id alone (a relation load, soft-deleted or not). -/
def byId (chId : String) (c : Channel) : Bool :=
  c.id == chId

/-- The body of `SalesChannelService.retrieve`: `findOne` on the channel id, with
the soft-delete filter of the generic query builder (a soft-deleted row is not
found); a pending read fault surfaces as a raw storage error. -/
def retrieveBody (s : State) (chId : String) : Except SCError Channel :=
  match s.readFault with
  | some msg => .error (.dbError "XX000" msg)
  | none =>
    match s.channels.find? (liveChannel chId) with
    | some c => .ok c
    | none => .error (.notFound (notFoundMessage chId))

/-- `atomicPhase_`: run the unit-of-work body on the current state; on success the
transaction commits (the new state is returned), on failure it rolls back (no
state escapes) and the error handler produces the error re-raised to the caller. -/
def atomicPhase {α : Type} (s : State) (body : State → Except SCError (α × State))
    (handler : SCError → Except SCError (α × State)) : Except SCError (α × State) :=
  match body s with
  | .ok r => .ok r
  | .error e => handler e

/-- The default error hook: re-raise the body's error unchanged. -/
def passthrough {α : Type} (e : SCError) : Except SCError (α × State) := .error e

def SalesChannelService.retrieve (s : State) (chId : String) :
    Except SCError (Channel × State) :=
  atomicPhase s
    (fun st =>
      match retrieveBody st chId with
      | .error e => .error e
      | .ok c => .ok (c, st))
    passthrough

def emitEvent (s : State) (eventName : String) (payloadId : String) : State :=
  { s with
    events := s.events ++ [(eventName, payloadId)],
    trace := s.trace ++ [.emitted eventName payloadId] }

/-- `salesChannelRepo.create(data)`: instantiate the entity from the input fields
with a fresh id (see `freshId`). -/
def channelRepoCreate (s : State) (d : CreateSalesChannelInput) : Channel × State :=
  ({ id := freshId s.nextId, name := d.name, description := d.description,
     is_disabled := d.is_disabled, deleted_at := none },
   { s with nextId := s.nextId + 1 })

/-- `salesChannelRepo.save` of a new entity: the row is appended. -/
def saveNew (s : State) (ch : Channel) : State :=
  { s with channels := s.channels ++ [ch], trace := s.trace ++ [.saved ch.id] }

/-- `salesChannelRepo.save` of a loaded entity: the row with the same id is
replaced. -/
def saveExisting (s : State) (ch : Channel) : State :=
  { s with
    channels := s.channels.map (fun c => if c.id == ch.id then ch else c),
    trace := s.trace ++ [.saved ch.id] }

/-- `salesChannelRepo.softRemove`: mark the row removed by setting its
soft-delete timestamp; the row is not physically erased. -/
def softRemove (s : State) (ch : Channel) : State :=
  { s with
    channels := s.channels.map
      (fun c => if c.id == ch.id then { c with deleted_at := some s.clock } else c),
    clock := s.clock + 1,
    trace := s.trace ++ [.softRemoved ch.id] }

/-- `SalesChannelService.create`: instantiate the channel, emit the CREATED event
with its id, then save — all inside one unit of work. -/
def SalesChannelService.create (s : State) (d : CreateSalesChannelInput) :
    Except SCError (Channel × State) :=
  atomicPhase s
    (fun st =>
      let p := channelRepoCreate st d
      let st1 := emitEvent p.2 Events.CREATED p.1.id
      let st2 := saveNew st1 p.1
      .ok (p.1, st2))
    passthrough

/-- The field loop of `SalesChannelService.update`: every key whose value is not
undefined overwrites the loaded entity's field; a provided null IS applied. -/
def applyUpdate (ch : Channel) (d : UpdateSalesChannelInput) : Channel :=
  { ch with
    name := match d.name with | none => ch.name | some v => v,
    description := match d.description with | none => ch.description | some v => v,
    is_disabled := match d.is_disabled with | none => ch.is_disabled | some v => v }

/-- `SalesChannelService.update`: retrieve (NotFound if absent), overwrite the
provided fields, save, emit UPDATED with the saved entity's id, return it. -/
def SalesChannelService.update (s : State) (chId : String)
    (d : UpdateSalesChannelInput) : Except SCError (Channel × State) :=
  atomicPhase s
    (fun st =>
      match retrieveBody st chId with
      | .error e => .error e
      | .ok ch =>
        let ch1 := applyUpdate ch d
        let st1 := saveExisting st ch1
        let st2 := emitEvent st1 Events.UPDATED ch1.id
        .ok (ch1, st2))
    passthrough

/-- `SalesChannelService.delete`: the retrieval's failure is caught
(`.catch(() => void 0)`); with no channel in hand the operation returns silently;
otherwise the channel is soft-removed and DELETED is emitted with the id. -/
def SalesChannelService.delete (s : State) (chId : String) :
    Except SCError (Unit × State) :=
  atomicPhase s
    (fun st =>
      match retrieveBody st chId with
      | .error _ => .ok ((), st)
      | .ok ch =>
        let st1 := softRemove st ch
        let st2 := emitEvent st1 Events.DELETED chId
        .ok ((), st2))
    passthrough

/-- Modelled from the spec: `ProductService.list({ id: productIds })` (the product
service is not under src/) — the Product Lookup returns the requested ids that
exist. -/
def productServiceList (s : State) (ids : List String) : List String :=
  s.products.filter (fun p => ids.contains p)

def missingProductsMessage (missing : List String) : String :=
  "The following product ids do not exist: \"" ++ String.intercalate ", " missing ++ "\""

/-- The error hook of `addProducts`: a foreign-key-violation is translated into a
NotFound MedusaError enumerating the requested product ids absent from the
Product Lookup; any other error goes through `formatException`. -/
def addProductsHandler (s : State) (pids : List String) (e : SCError) :
    Except SCError (Channel × State) :=
  match e with
  | .dbError code _ =>
    if code == PostgresError.FOREIGN_KEY_ERROR then
      let existing := productServiceList s pids
      let nonExisting := pids.filter (fun pid => !(existing.contains pid))
      .error (.notFound (missingProductsMessage nonExisting))
    else .error (formatException e)
  | other => .error (formatException other)

/-- `SalesChannelService.addProducts`: run the repository bulk insert, then
re-retrieve and return the channel, inside one unit of work with the
foreign-key-translating error hook. -/
def SalesChannelService.addProducts (s : State) (chId : String)
    (pids : List String) : Except SCError (Channel × State) :=
  atomicPhase s
    (fun st =>
      match SalesChannelRepository.addProducts st chId pids with
      | .error e => .error e
      | .ok st1 =>
        match retrieveBody st1 chId with
        | .error e => .error e
        | .ok ch => .ok (ch, st1))
    (addProductsHandler s pids)

def defaultChannelInput : CreateSalesChannelInput :=
  { name := "Default Sales Channel", description := some "Created by Medusa",
    is_disabled := false }

/-- `SalesChannelService.createDefault`: retrieve the Store (modelled from the
spec — the store service is not under src/ — as the `State.store` singleton with
its default-channel relation loaded from the channel rows); if a default pointer
is set return that channel, otherwise create the fixed default channel through
`create` and point the Store at it. -/
def SalesChannelService.createDefault (s : State) :
    Except SCError (Channel × State) :=
  atomicPhase s
    (fun st =>
      match st.store.default_sales_channel_id with
      | some did =>
        match st.channels.find? (byId did) with
        | some c => .ok (c, st)
        | none => .error (.notFound "Store default sales channel was not found")
      | none =>
        match SalesChannelService.create st defaultChannelInput with
        | .error e => .error e
        | .ok p =>
          let st2 := { p.2 with store := { default_sales_channel_id := some p.1.id } }
          .ok (p.1, st2))
    passthrough

/-- The state after a successful `addProducts`: the insert-ignored rows are the
only change. -/
def afterAdd (s : State) (chId : String) (pids : List String) : State :=
  { s with assocs := insertIgnoreAll s.assocs (pids.map (fun pid => (chId, pid))) }

/-- The channel instantiated by `create` on state `s`. -/
def createdChannel (s : State) (d : CreateSalesChannelInput) : Channel :=
  (channelRepoCreate s d).1

/-- The state after a successful `create`. -/
def afterCreate (s : State) (d : CreateSalesChannelInput) : State :=
  saveNew (emitEvent (channelRepoCreate s d).2 Events.CREATED (createdChannel s d).id)
    (createdChannel s d)

/-- The state after the creation branch of `createDefault`. -/
def afterCreateDefault (s : State) : State :=
  { afterCreate s defaultChannelInput with
    store := { default_sales_channel_id := some (createdChannel s defaultChannelInput).id } }

/-- The state after a successful `update` of the loaded channel `c`. -/
def afterUpdate (s : State) (c : Channel) (d : UpdateSalesChannelInput) : State :=
  emitEvent (saveExisting s (applyUpdate c d)) Events.UPDATED (applyUpdate c d).id

/-- The state after `delete` soft-removes the loaded channel `c`. -/
def afterDelete (s : State) (c : Channel) (chId : String) : State :=
  emitEvent (softRemove s c) Events.DELETED chId

/-- A live sample channel used by the concrete checks. -/
def chanA : Channel :=
  { id := "ch_1", name := "Main", description := none, is_disabled := false,
    deleted_at := none }

/-- A small healthy sample state: one live channel, two products, no
associations and no pending fault. -/
def baseState : State :=
  { channels := [chanA], products := ["p1", "p2"], assocs := [],
    store := { default_sales_channel_id := none }, events := [], trace := [],
    nextId := 0, clock := 0, readFault := none }

lemma mem_insertIgnore {l : List (String × String)} {r x : String × String} :
    x ∈ insertIgnore l r ↔ x ∈ l ∨ x = r := by
  unfold insertIgnore
  by_cases h : r ∈ l
  · rw [if_pos h]
    constructor
    · exact Or.inl
    · rintro (hx | rfl)
      · exact hx
      · exact h
  · rw [if_neg h]
    simp

lemma nodup_insertIgnore {l : List (String × String)} {r : String × String}
    (h : l.Nodup) : (insertIgnore l r).Nodup := by
  unfold insertIgnore
  by_cases hm : r ∈ l
  · rwa [if_pos hm]
  · rw [if_neg hm, List.nodup_append]
    refine ⟨h, List.nodup_singleton r, ?_⟩
    intro a ha hb
    rw [List.mem_singleton] at hb
    subst hb
    exact hm ha

lemma mem_insertIgnoreAll {rows : List (String × String)} :
    ∀ {l : List (String × String)} {x : String × String},
      x ∈ insertIgnoreAll l rows ↔ x ∈ l ∨ x ∈ rows := by
  induction rows with
  | nil => intro l x; simp [insertIgnoreAll]
  | cons r t ih =>
    intro l x
    show x ∈ insertIgnoreAll (insertIgnore l r) t ↔ _
    rw [ih, mem_insertIgnore]
    simp [or_assoc]

lemma nodup_insertIgnoreAll {rows : List (String × String)} :
    ∀ {l : List (String × String)}, l.Nodup → (insertIgnoreAll l rows).Nodup := by
  induction rows with
  | nil => intro l h; exact h
  | cons r t ih =>
    intro l h
    exact ih (nodup_insertIgnore h)

lemma find?_append_of_none {α : Type} {p : α → Bool} {l1 l2 : List α}
    (h : l1.find? p = none) : (l1 ++ l2).find? p = l2.find? p := by
  induction l1 with
  | nil => simp
  | cons a t ih =>
    have ha : p a = false := by
      cases hpa : p a with
      | false => rfl
      | true => rw [List.find?_cons, hpa] at h; exact absurd h (by simp)
    have ht : t.find? p = none := by rwa [List.find?_cons, ha] at h
    simp only [List.cons_append, List.find?_cons, ha]
    exact ih ht

/-- C9: the Association Store's bulk insert called with an empty product id
sequence succeeds as a no-op: no error, and the state (associations included) is
unchanged. -/
theorem repoAddProducts_empty_noop (s : State) (chId : String) (_hne : chId ≠ "") :
    SalesChannelRepository.addProducts s chId [] = .ok s := rfl

theorem repoAddProducts_empty_noop_witness :
    ("ch_1" : String) ≠ "" ∧
    SalesChannelRepository.addProducts baseState "ch_1" [] = .ok baseState :=
  ⟨by decide, repoAddProducts_empty_noop baseState "ch_1" (by decide)⟩

/-- C3: `create` persists a new Channel from the given fields, emits a
`sales_channel.created` event carrying the new channel's id, and returns the
saved Channel; in the side-effect trace of the single unit of work the emission
precedes the save. -/
theorem create_persists_and_emits_created (s : State) (d : CreateSalesChannelInput) :
    SalesChannelService.create s d = .ok (createdChannel s d, afterCreate s d) ∧
    (createdChannel s d).name = d.name ∧
    (createdChannel s d).description = d.description ∧
    (createdChannel s d).is_disabled = d.is_disabled ∧
    (afterCreate s d).channels = s.channels ++ [createdChannel s d] ∧
    (afterCreate s d).events = s.events ++ [(Events.CREATED, (createdChannel s d).id)] ∧
    (afterCreate s d).trace = s.trace ++
      [TraceAction.emitted Events.CREATED (createdChannel s d).id,
       TraceAction.saved (createdChannel s d).id] := by
  refine ⟨rfl, rfl, rfl, rfl, rfl, rfl, ?_⟩
  simp [afterCreate, saveNew, emitEvent, channelRepoCreate, createdChannel]

/-- C10: when `createDefault` takes its creation branch (the Store has no
default channel id) a `sales_channel.created` event carrying the new channel's
id is emitted within the same unit of work, because the default channel is made
through the ordinary `create`. -/
theorem createDefault_emits_created_event (s : State)
    (h : s.store.default_sales_channel_id = none) :
    SalesChannelService.createDefault s =
      .ok (createdChannel s defaultChannelInput, afterCreateDefault s) ∧
    (afterCreateDefault s).events =
      s.events ++ [(Events.CREATED, (createdChannel s defaultChannelInput).id)] := by
  constructor
  · simp [SalesChannelService.createDefault, atomicPhase, SalesChannelService.create, h,
      afterCreateDefault, afterCreate, createdChannel, channelRepoCreate, emitEvent, saveNew]
  · simp [afterCreateDefault, afterCreate, emitEvent, saveNew, createdChannel,
      channelRepoCreate]

theorem createDefault_emits_created_event_witness :
    baseState.store.default_sales_channel_id = none ∧
    SalesChannelService.createDefault baseState =
      .ok (createdChannel baseState defaultChannelInput, afterCreateDefault baseState) ∧
    (afterCreateDefault baseState).events =
      baseState.events ++ [(Events.CREATED, (createdChannel baseState defaultChannelInput).id)] :=
  ⟨rfl, (createDefault_emits_created_event baseState rfl).1,
    (createDefault_emits_created_event baseState rfl).2⟩

/-- C7: with no default pointer on the Store, `createDefault` creates exactly one
channel named "Default Sales Channel" with is_disabled = false, points the Store
at it and returns it; a second call returns the very same channel and leaves the
state (channel rows included) unchanged. -/
theorem createDefault_idempotent (s : State)
    (hnone : s.store.default_sales_channel_id = none)
    (hfresh : s.channels.find? (byId (freshId s.nextId)) = none) :
    SalesChannelService.createDefault s =
      .ok (createdChannel s defaultChannelInput, afterCreateDefault s) ∧
    (createdChannel s defaultChannelInput).name = "Default Sales Channel" ∧
    (createdChannel s defaultChannelInput).description = some "Created by Medusa" ∧
    (createdChannel s defaultChannelInput).is_disabled = false ∧
    (afterCreateDefault s).channels = s.channels ++ [createdChannel s defaultChannelInput] ∧
    (afterCreateDefault s).store.default_sales_channel_id =
      some (createdChannel s defaultChannelInput).id ∧
    SalesChannelService.createDefault (afterCreateDefault s) =
      .ok (createdChannel s defaultChannelInput, afterCreateDefault s) := by
  refine ⟨?_, rfl, rfl, rfl, rfl, rfl, ?_⟩
  · simp [SalesChannelService.createDefault, atomicPhase, SalesChannelService.create, hnone,
      afterCreateDefault, afterCreate, createdChannel, channelRepoCreate, emitEvent, saveNew]
  · have hpoint : (afterCreateDefault s).store.default_sales_channel_id =
        some (freshId s.nextId) := rfl
    have hch : (afterCreateDefault s).channels =
        s.channels ++ [createdChannel s defaultChannelInput] := rfl
    simp only [SalesChannelService.createDefault, atomicPhase, hpoint, hch]
    rw [find?_append_of_none hfresh]
    simp [List.find?, byId, createdChannel, channelRepoCreate]

theorem createDefault_idempotent_witness :
    baseState.store.default_sales_channel_id = none ∧
    baseState.channels.find? (byId (freshId baseState.nextId)) = none ∧
    SalesChannelService.createDefault baseState =
      .ok (createdChannel baseState defaultChannelInput, afterCreateDefault baseState) ∧
    SalesChannelService.createDefault (afterCreateDefault baseState) =
      .ok (createdChannel baseState defaultChannelInput, afterCreateDefault baseState) :=
  ⟨rfl, rfl, (createDefault_idempotent baseState rfl rfl).1,
    (createDefault_idempotent baseState rfl rfl).2.2.2.2.2.2⟩

/-- C8: `delete` on an id with no live channel returns without error, emits no
event and changes nothing; on a live channel it soft-removes the row (the row
count is preserved and the row is still present, marked with a deletion
timestamp) and emits a `sales_channel.deleted` event carrying the id. -/
theorem delete_idempotent_and_soft (s : State) (chId : String) (c : Channel)
    (hfault : s.readFault = none) :
    (s.channels.find? (liveChannel chId) = none →
      SalesChannelService.delete s chId = .ok ((), s)) ∧
    (s.channels.find? (liveChannel chId) = some c →
      SalesChannelService.delete s chId = .ok ((), afterDelete s c chId) ∧
      (afterDelete s c chId).events = s.events ++ [(Events.DELETED, chId)] ∧
      (afterDelete s c chId).channels.length = s.channels.length ∧
      { c with deleted_at := some s.clock } ∈ (afterDelete s c chId).channels ∧
      ({ c with deleted_at := some s.clock } : Channel).deleted_at ≠ none) := by
  constructor
  · intro hnone
    simp [SalesChannelService.delete, atomicPhase, retrieveBody, hfault, hnone]
  · intro hsome
    refine ⟨?_, rfl, ?_, ?_, by simp⟩
    · simp [SalesChannelService.delete, atomicPhase, retrieveBody, hfault, hsome, afterDelete]
    · simp [afterDelete, emitEvent, softRemove]
    · have hc : c ∈ s.channels := List.mem_of_find?_eq_some hsome
      have hmem := List.mem_map_of_mem
        (fun x => if x.id == c.id then { x with deleted_at := some s.clock } else x) hc
      simp only [afterDelete, emitEvent, softRemove]
      simpa using hmem

theorem delete_idempotent_and_soft_witness :
    baseState.readFault = none ∧
    baseState.channels.find? (liveChannel "nope") = none ∧
    SalesChannelService.delete baseState "nope" = .ok ((), baseState) ∧
    baseState.channels.find? (liveChannel "ch_1") = some chanA ∧
    SalesChannelService.delete baseState "ch_1" =
      .ok ((), afterDelete baseState chanA "ch_1") ∧
    (afterDelete baseState chanA "ch_1").events =
      baseState.events ++ [(Events.DELETED, "ch_1")] :=
  ⟨rfl, rfl, (delete_idempotent_and_soft baseState "nope" chanA rfl).1 rfl, rfl,
    ((delete_idempotent_and_soft baseState "ch_1" chanA rfl).2 rfl).1,
    ((delete_idempotent_and_soft baseState "ch_1" chanA rfl).2 rfl).2.1⟩

/-- C6: `update` on a live channel overwrites exactly the fields whose value is
provided (an absent/undefined field is skipped; a provided null IS applied),
saves, emits `sales_channel.updated` with the channel id and returns the updated
channel; on an id with no live channel it fails with NotFound. -/
theorem update_applies_defined_fields (s : State) (chId : String)
    (d : UpdateSalesChannelInput) (c : Channel) (hfault : s.readFault = none) :
    (s.channels.find? (liveChannel chId) = some c →
      SalesChannelService.update s chId d = .ok (applyUpdate c d, afterUpdate s c d) ∧
      (d.name = none → (applyUpdate c d).name = c.name) ∧
      (∀ v, d.name = some v → (applyUpdate c d).name = v) ∧
      (d.description = none → (applyUpdate c d).description = c.description) ∧
      (∀ v, d.description = some v → (applyUpdate c d).description = v) ∧
      (d.is_disabled = none → (applyUpdate c d).is_disabled = c.is_disabled) ∧
      (∀ v, d.is_disabled = some v → (applyUpdate c d).is_disabled = v) ∧
      (afterUpdate s c d).events = s.events ++ [(Events.UPDATED, c.id)] ∧
      applyUpdate c d ∈ (afterUpdate s c d).channels) ∧
    (s.channels.find? (liveChannel chId) = none →
      SalesChannelService.update s chId d = .error (.notFound (notFoundMessage chId))) := by
  constructor
  · intro hsome
    refine ⟨?_, ?_, ?_, ?_, ?_, ?_, ?_, rfl, ?_⟩
    · simp [SalesChannelService.update, atomicPhase, retrieveBody, hfault, hsome, afterUpdate]
    · intro h; simp [applyUpdate, h]
    · intro v h; simp [applyUpdate, h]
    · intro h; simp [applyUpdate, h]
    · intro v h; simp [applyUpdate, h]
    · intro h; simp [applyUpdate, h]
    · intro v h; simp [applyUpdate, h]
    · have hc : c ∈ s.channels := List.mem_of_find?_eq_some hsome
      have hmem := List.mem_map_of_mem
        (fun x => if x.id == (applyUpdate c d).id then applyUpdate c d else x) hc
      simp only [afterUpdate, emitEvent, saveExisting]
      simpa [applyUpdate] using hmem
  · intro hnone
    simp [SalesChannelService.update, atomicPhase, passthrough, retrieveBody, hfault, hnone]

/-- The claim's sample partial input: name is absent, description is provided. -/
def updNameSkip : UpdateSalesChannelInput :=
  { name := none, description := some (some "new"), is_disabled := none }

theorem update_applies_defined_fields_witness :
    baseState.readFault = none ∧
    baseState.channels.find? (liveChannel "ch_1") = some chanA ∧
    SalesChannelService.update baseState "ch_1" updNameSkip =
      .ok (applyUpdate chanA updNameSkip, afterUpdate baseState chanA updNameSkip) ∧
    (applyUpdate chanA updNameSkip).name = chanA.name ∧
    (applyUpdate chanA updNameSkip).description = some "new" ∧
    baseState.channels.find? (liveChannel "nope") = none ∧
    SalesChannelService.update baseState "nope" updNameSkip =
      .error (.notFound (notFoundMessage "nope")) :=
  ⟨rfl, rfl,
    ((update_applies_defined_fields baseState "ch_1" updNameSkip chanA rfl).1 rfl).1,
    ((update_applies_defined_fields baseState "ch_1" updNameSkip chanA rfl).1 rfl).2.1 rfl,
    ((update_applies_defined_fields baseState "ch_1" updNameSkip chanA rfl).1 rfl).2.2.2.2.1
      (some "new") rfl,
    rfl,
    (update_applies_defined_fields baseState "nope" updNameSkip chanA rfl).2 rfl⟩

lemma list_contains_iff (l : List String) (a : String) : l.contains a = true ↔ a ∈ l := by
  simp

lemma missing_filter_eq (s : State) (pids : List String) :
    pids.filter (fun pid => !((productServiceList s pids).contains pid)) =
    pids.filter (fun pid => !(s.products.contains pid)) := by
  apply List.filter_congr
  intro p hp
  have hps : (productServiceList s pids).contains p = s.products.contains p := by
    unfold productServiceList
    cases hsp : s.products.contains p with
    | true =>
      have hmem : p ∈ s.products := (list_contains_iff _ _).mp hsp
      have hmemf : p ∈ s.products.filter (fun q => pids.contains q) :=
        List.mem_filter.mpr ⟨hmem, (list_contains_iff _ _).mpr hp⟩
      exact (list_contains_iff _ _).mpr hmemf
    | false =>
      cases hc : (s.products.filter (fun q => pids.contains q)).contains p with
      | false => rfl
      | true =>
        have hmemf := (list_contains_iff _ _).mp hc
        have hmem : p ∈ s.products := (List.mem_filter.mp hmemf).1
        rw [(list_contains_iff _ _).mpr hmem] at hsp
        exact absurd hsp (by simp)
  rw [hps]

/-- The foreign-key branch of the `addProducts` error hook, computed: the raised
error is a NotFound enumerating the requested ids missing from the product
table. -/
lemma addProducts_fk_eq (s : State) (chId : String) (pids : List String)
    (msg : String)
    (hfail : SalesChannelRepository.addProducts s chId pids =
      .error (.dbError PostgresError.FOREIGN_KEY_ERROR msg)) :
    SalesChannelService.addProducts s chId pids =
      .error (.notFound (missingProductsMessage
        (pids.filter (fun pid => !(s.products.contains pid))))) := by
  have hhandler : addProductsHandler s pids
      (.dbError PostgresError.FOREIGN_KEY_ERROR msg) =
      .error (.notFound (missingProductsMessage
        (pids.filter (fun pid => !((productServiceList s pids).contains pid))))) := by
    simp only [addProductsHandler]
    rw [if_pos (show (PostgresError.FOREIGN_KEY_ERROR ==
      PostgresError.FOREIGN_KEY_ERROR) = true from rfl)]
  simp only [SalesChannelService.addProducts, atomicPhase, hfail]
  rw [hhandler, missing_filter_eq]

/-- C1: when the bulk insert of `addProducts` fails with a foreign-key-violation,
the service does not propagate the raw storage error: it fails with a NotFound
domain error whose message enumerates exactly the requested product ids missing
from the Product Lookup. -/
theorem addProducts_translates_fk_to_missing_ids (s : State) (chId : String)
    (pids : List String) (msg : String)
    (hfail : SalesChannelRepository.addProducts s chId pids =
      .error (.dbError PostgresError.FOREIGN_KEY_ERROR msg)) :
    SalesChannelService.addProducts s chId pids =
      .error (.notFound (missingProductsMessage
        (pids.filter (fun pid => !(s.products.contains pid))))) :=
  addProducts_fk_eq s chId pids msg hfail

theorem addProducts_translates_fk_to_missing_ids_witness :
    SalesChannelRepository.addProducts baseState "ch_1" ["p1", "does-not-exist"] =
      .error (.dbError PostgresError.FOREIGN_KEY_ERROR
        "insert on product_sales_channel violates foreign key constraint") ∧
    SalesChannelService.addProducts baseState "ch_1" ["p1", "does-not-exist"] =
      .error (.notFound "The following product ids do not exist: \"does-not-exist\"") :=
  ⟨rfl, addProducts_translates_fk_to_missing_ids baseState "ch_1"
    ["p1", "does-not-exist"]
    "insert on product_sales_channel violates foreign key constraint" rfl⟩

/-- A state whose channel table is empty while its product table holds "p1": an
insert for channel "c" fails its foreign key purely because of the channel id. -/
def fkChannelCaseState : State :=
  { channels := [], products := ["p1"], assocs := [],
    store := { default_sales_channel_id := none }, events := [], trace := [],
    nextId := 0, clock := 0, readFault := none }

/-- C4 counterexample: the bulk insert fails with a foreign-key-violation caused
by the channel id while every requested product id exists, yet the service does
NOT report the underlying error untouched — it raises a NotFound error
enumerating an empty list of missing product ids. -/
theorem addProducts_fk_channel_case_cex :
    SalesChannelService.addProducts fkChannelCaseState "c" ["p1"] =
      .error (.notFound "The following product ids do not exist: \"\"") ∧
    ∀ code m, SCError.notFound "The following product ids do not exist: \"\"" ≠
      SCError.dbError code m := by
  refine ⟨rfl, ?_⟩
  intro code m h
  exact SCError.noConfusion h

/-- C4 amended: when the bulk insert fails with a foreign-key-violation but every
requested product id exists in the Product Lookup, the raw error is still
replaced — the service fails with a NotFound error enumerating an empty list of
missing product ids. -/
theorem addProducts_fk_all_products_exist (s : State) (chId : String)
    (pids : List String) (msg : String)
    (hfail : SalesChannelRepository.addProducts s chId pids =
      .error (.dbError PostgresError.FOREIGN_KEY_ERROR msg))
    (hall : pids.all (fun p => s.products.contains p) = true) :
    SalesChannelService.addProducts s chId pids =
      .error (.notFound (missingProductsMessage [])) := by
  rw [addProducts_fk_eq s chId pids msg hfail]
  have hnil : pids.filter (fun pid => !(s.products.contains pid)) = [] := by
    rw [List.filter_eq_nil_iff]
    intro p hp
    have h2 := List.all_eq_true.mp hall p hp
    simp only [h2]
    simp
  rw [hnil]

theorem addProducts_fk_all_products_exist_witness :
    SalesChannelRepository.addProducts fkChannelCaseState "c" ["p1"] =
      .error (.dbError PostgresError.FOREIGN_KEY_ERROR
        "insert on product_sales_channel violates foreign key constraint") ∧
    (["p1"].all (fun p => fkChannelCaseState.products.contains p)) = true ∧
    SalesChannelService.addProducts fkChannelCaseState "c" ["p1"] =
      .error (.notFound (missingProductsMessage [])) :=
  ⟨rfl, rfl, addProducts_fk_all_products_exist fkChannelCaseState "c" ["p1"]
    "insert on product_sales_channel violates foreign key constraint" rfl rfl⟩

/-- A healthy state except for a pending storage fault on the next repository
read. -/
def faultedState : State := { baseState with readFault := some "connection reset" }

/-- C5 counterexample: the retrieval inside `delete` fails with a generic storage
error (not a not-found outcome), yet `delete` swallows it and reports success —
contradicting the claim that only a not-found outcome of the retrieval is
treated as success. -/
theorem delete_swallows_storage_error_cex :
    SalesChannelService.retrieve faultedState "ch_1" =
      .error (.dbError "XX000" "connection reset") ∧
    SalesChannelService.delete faultedState "ch_1" = .ok ((), faultedState) :=
  ⟨rfl, rfl⟩

/-- C5 amended: the only silent swallowings are `delete` — where ANY failure of
the retrieval (not only a not-found outcome) is treated as success, with no
event and no state change — and the Association Store's insert-ignore, where an
already-present pair is skipped without error and without change; a retrieval
failure in `update` propagates to the caller unchanged. -/
theorem error_swallowing_policy (s : State) (chId : String) (pid : String)
    (d : UpdateSalesChannelInput) (e : SCError)
    (hret : SalesChannelService.retrieve s chId = .error e)
    (hfk : fkSatisfied s chId pid = true)
    (hdup : (chId, pid) ∈ s.assocs) :
    SalesChannelService.delete s chId = .ok ((), s) ∧
    SalesChannelService.update s chId d = .error e ∧
    SalesChannelRepository.addProducts s chId [pid] = .ok s := by
  have hbody : retrieveBody s chId = .error e := by
    simp only [SalesChannelService.retrieve, atomicPhase] at hret
    cases hb : retrieveBody s chId with
    | ok c => rw [hb] at hret; exact absurd hret (by simp)
    | error e2 =>
      rw [hb] at hret
      simp only [passthrough, Except.error.injEq] at hret
      rw [hret]
  refine ⟨?_, ?_, ?_⟩
  · simp [SalesChannelService.delete, atomicPhase, hbody]
  · simp [SalesChannelService.update, atomicPhase, passthrough, hbody]
  · simp only [SalesChannelRepository.addProducts]
    rw [if_pos (by simp [hfk])]
    simp [insertIgnoreAll, insertIgnore, hdup]

/-- The sample channel after soft removal at clock 0. -/
def chanADeleted : Channel :=
  { id := "ch_1", name := "Main", description := none, is_disabled := false,
    deleted_at := some 0 }

/-- A state whose only channel row is soft-deleted while its foreign key targets
remain valid: retrieval fails, yet the association row may legally exist. -/
def swallowState : State :=
  { channels := [chanADeleted], products := ["p1"], assocs := [("ch_1", "p1")],
    store := { default_sales_channel_id := none }, events := [], trace := [],
    nextId := 0, clock := 1, readFault := none }

theorem error_swallowing_policy_witness :
    SalesChannelService.retrieve swallowState "ch_1" =
      .error (.notFound (notFoundMessage "ch_1")) ∧
    fkSatisfied swallowState "ch_1" "p1" = true ∧
    ("ch_1", "p1") ∈ swallowState.assocs ∧
    SalesChannelService.delete swallowState "ch_1" = .ok ((), swallowState) ∧
    SalesChannelService.update swallowState "ch_1" {} =
      .error (.notFound (notFoundMessage "ch_1")) ∧
    SalesChannelRepository.addProducts swallowState "ch_1" ["p1"] = .ok swallowState :=
  ⟨rfl, rfl, by decide,
    (error_swallowing_policy swallowState "ch_1" "p1" {}
      (.notFound (notFoundMessage "ch_1")) rfl rfl (by decide)).1,
    (error_swallowing_policy swallowState "ch_1" "p1" {}
      (.notFound (notFoundMessage "ch_1")) rfl rfl (by decide)).2.1,
    (error_swallowing_policy swallowState "ch_1" "p1" {}
      (.notFound (notFoundMessage "ch_1")) rfl rfl (by decide)).2.2⟩

/-- One count in a duplicate-free list with a member is exactly one (stated for
the product BEq instance used by the association relation). -/
lemma count_eq_one_of_nodup_mem {α : Type} [BEq α] [LawfulBEq α] {l : List α}
    {a : α} (hnd : l.Nodup) (hmem : a ∈ l) : l.count a = 1 := by
  induction l with
  | nil => cases hmem
  | cons x t ih =>
    rw [List.count_cons]
    rcases List.mem_cons.mp hmem with rfl | hmt
    · have hz : t.count a = 0 := List.count_eq_zero.mpr (List.nodup_cons.mp hnd).1
      simp [hz]
    · have hx : ¬(x == a) = true := by
        intro hbeq
        have hxa : x = a := eq_of_beq hbeq
        subst hxa
        exact (List.nodup_cons.mp hnd).1 hmt
      have ht := ih (List.nodup_cons.mp hnd).2 hmt
      simp [ht, hx]

/-- A successful `addProducts`: with a live channel, all products present and no
pending fault, the service returns the retrieved channel and the state extended
by the insert-ignored rows. -/
lemma addProducts_ok (s : State) (chId : String) (pids : List String) (c : Channel)
    (hfind : s.channels.find? (liveChannel chId) = some c)
    (hprods : (pids.all (fun p => s.products.contains p)) = true)
    (hfault : s.readFault = none) :
    SalesChannelService.addProducts s chId pids = .ok (c, afterAdd s chId pids) := by
  have hc : c ∈ s.channels := List.mem_of_find?_eq_some hfind
  have hcp : liveChannel chId c = true := List.find?_some hfind
  have hrow : channelRowExists s chId = true := by
    apply List.any_eq_true.mpr
    refine ⟨c, hc, ?_⟩
    unfold liveChannel at hcp
    exact ((Bool.and_eq_true _ _).mp hcp).1
  have hall : (pids.all (fun pid => fkSatisfied s chId pid)) = true := by
    apply List.all_eq_true.mpr
    intro p hp
    have hp2 := List.all_eq_true.mp hprods p hp
    unfold fkSatisfied
    rw [hrow, hp2]
    rfl
  have hrepo : SalesChannelRepository.addProducts s chId pids =
      .ok (afterAdd s chId pids) := by
    simp [SalesChannelRepository.addProducts, hall, afterAdd]
  have hretr : retrieveBody (afterAdd s chId pids) chId = .ok c := by
    have h1 : (afterAdd s chId pids).readFault = s.readFault := rfl
    have h2 : (afterAdd s chId pids).channels = s.channels := rfl
    simp only [retrieveBody, h1, h2, hfault, hfind]
  simp only [SalesChannelService.addProducts, atomicPhase, hrepo, hretr]

/-- C2: `addProducts` has insert-ignore idempotence.  Calling it twice with the
same two existing products leaves exactly one association row per pair and the
second call succeeds; and adding overlapping sets A then B to a channel with no
prior associations yields exactly the associations A ∪ B, without duplicates. -/
theorem addProducts_idempotent_union (s : State) (chId : String)
    (p1 p2 : String) (A B : List String) (c : Channel)
    (hfind : s.channels.find? (liveChannel chId) = some c)
    (hfault : s.readFault = none)
    (hnodup : s.assocs.Nodup)
    (hp : ([p1, p2].all (fun p => s.products.contains p)) = true)
    (hA : (A.all (fun p => s.products.contains p)) = true)
    (hB : (B.all (fun p => s.products.contains p)) = true)
    (hempty : (s.assocs.all (fun r => !(r.1 == chId))) = true) :
    (SalesChannelService.addProducts s chId [p1, p2] =
       .ok (c, afterAdd s chId [p1, p2]) ∧
     SalesChannelService.addProducts (afterAdd s chId [p1, p2]) chId [p1, p2] =
       .ok (c, afterAdd (afterAdd s chId [p1, p2]) chId [p1, p2]) ∧
     (afterAdd (afterAdd s chId [p1, p2]) chId [p1, p2]).assocs.Nodup ∧
     (afterAdd (afterAdd s chId [p1, p2]) chId [p1, p2]).assocs.count (chId, p1) = 1 ∧
     (afterAdd (afterAdd s chId [p1, p2]) chId [p1, p2]).assocs.count (chId, p2) = 1) ∧
    (SalesChannelService.addProducts s chId A = .ok (c, afterAdd s chId A) ∧
     SalesChannelService.addProducts (afterAdd s chId A) chId B =
       .ok (c, afterAdd (afterAdd s chId A) chId B) ∧
     (afterAdd (afterAdd s chId A) chId B).assocs.Nodup ∧
     ∀ p, ((chId, p) ∈ (afterAdd (afterAdd s chId A) chId B).assocs ↔
       p ∈ A ∨ p ∈ B)) := by
  have hnotin : ∀ p : String, (chId, p) ∉ s.assocs := by
    intro p hmem
    have h2 := List.all_eq_true.mp hempty _ hmem
    simp at h2
  constructor
  · have h1 := addProducts_ok s chId [p1, p2] c hfind hp hfault
    have hfind1 : (afterAdd s chId [p1, p2]).channels.find? (liveChannel chId) =
        some c := hfind
    have hfault1 : (afterAdd s chId [p1, p2]).readFault = none := hfault
    have hp1 : (([p1, p2]).all
        (fun p => (afterAdd s chId [p1, p2]).products.contains p)) = true := hp
    have h2 := addProducts_ok (afterAdd s chId [p1, p2]) chId [p1, p2] c
      hfind1 hp1 hfault1
    have hnd : (afterAdd (afterAdd s chId [p1, p2]) chId [p1, p2]).assocs.Nodup :=
      nodup_insertIgnoreAll (nodup_insertIgnoreAll hnodup)
    have hm1 : (chId, p1) ∈ (afterAdd (afterAdd s chId [p1, p2]) chId [p1, p2]).assocs :=
      mem_insertIgnoreAll.mpr (Or.inr (by simp))
    have hm2 : (chId, p2) ∈ (afterAdd (afterAdd s chId [p1, p2]) chId [p1, p2]).assocs :=
      mem_insertIgnoreAll.mpr (Or.inr (by simp))
    exact ⟨h1, h2, hnd, count_eq_one_of_nodup_mem hnd hm1,
      count_eq_one_of_nodup_mem hnd hm2⟩
  · have h1 := addProducts_ok s chId A c hfind hA hfault
    have hfindA : (afterAdd s chId A).channels.find? (liveChannel chId) =
        some c := hfind
    have hfaultA : (afterAdd s chId A).readFault = none := hfault
    have hBA : (B.all (fun p => (afterAdd s chId A).products.contains p)) = true := hB
    have h2 := addProducts_ok (afterAdd s chId A) chId B c hfindA hBA hfaultA
    have hnd : (afterAdd (afterAdd s chId A) chId B).assocs.Nodup :=
      nodup_insertIgnoreAll (nodup_insertIgnoreAll hnodup)
    refine ⟨h1, h2, hnd, ?_⟩
    intro p
    show (chId, p) ∈ insertIgnoreAll
      (insertIgnoreAll s.assocs (A.map (fun pid => (chId, pid))))
      (B.map (fun pid => (chId, pid))) ↔ p ∈ A ∨ p ∈ B
    rw [mem_insertIgnoreAll, mem_insertIgnoreAll]
    simp [List.mem_map, hnotin p]

theorem addProducts_idempotent_union_witness :
    baseState.channels.find? (liveChannel "ch_1") = some chanA ∧
    baseState.readFault = none ∧
    baseState.assocs.Nodup ∧
    (["p1", "p2"].all (fun p => baseState.products.contains p)) = true ∧
    (["p1"].all (fun p => baseState.products.contains p)) = true ∧
    (baseState.assocs.all (fun r => !(r.1 == "ch_1"))) = true ∧
    SalesChannelService.addProducts baseState "ch_1" ["p1", "p2"] =
      .ok (chanA, afterAdd baseState "ch_1" ["p1", "p2"]) ∧
    SalesChannelService.addProducts (afterAdd baseState "ch_1" ["p1", "p2"]) "ch_1"
      ["p1", "p2"] =
      .ok (chanA, afterAdd (afterAdd baseState "ch_1" ["p1", "p2"]) "ch_1" ["p1", "p2"]) ∧
    (afterAdd (afterAdd baseState "ch_1" ["p1", "p2"]) "ch_1" ["p1", "p2"]).assocs.count
      ("ch_1", "p1") = 1 ∧
    (afterAdd (afterAdd baseState "ch_1" ["p1", "p2"]) "ch_1" ["p1", "p2"]).assocs.count
      ("ch_1", "p2") = 1 ∧
    (("ch_1", "p2") ∈ (afterAdd (afterAdd baseState "ch_1" ["p1"]) "ch_1"
      ["p1", "p2"]).assocs ↔ "p2" ∈ ["p1"] ∨ "p2" ∈ ["p1", "p2"]) :=
  ⟨rfl, rfl, by decide, rfl, rfl, rfl,
    (addProducts_idempotent_union baseState "ch_1" "p1" "p2" ["p1"] ["p1", "p2"]
      chanA rfl rfl (by decide) rfl rfl rfl rfl).1.1,
    (addProducts_idempotent_union baseState "ch_1" "p1" "p2" ["p1"] ["p1", "p2"]
      chanA rfl rfl (by decide) rfl rfl rfl rfl).1.2.1,
    (addProducts_idempotent_union baseState "ch_1" "p1" "p2" ["p1"] ["p1", "p2"]
      chanA rfl rfl (by decide) rfl rfl rfl rfl).1.2.2.2.1,
    (addProducts_idempotent_union baseState "ch_1" "p1" "p2" ["p1"] ["p1", "p2"]
      chanA rfl rfl (by decide) rfl rfl rfl rfl).1.2.2.2.2,
    (addProducts_idempotent_union baseState "ch_1" "p1" "p2" ["p1"] ["p1", "p2"]
      chanA rfl rfl (by decide) rfl rfl rfl rfl).2.2.2.2 "p2"⟩
